import Mathlib

/-! # Gyroscope sample-to-distance pipeline (`src/main.cpp`)

A shallow embedding of the firmware's register codec (`ReadData`, `ReadGyroData`),
sample conditioner (`ProcessGyroData`), distance estimator
(`CalculateAndDisplayDistance`) and of the body of the `while (1)` loop of `main`.

Modelling conventions.

* `float` and `double` values are elements of a linear ordered field `α`; the
  theorems about numeric results take `α = ℝ` (exact arithmetic, no rounding), the
  definitions stay executable at `α = ℚ`.  `sqrt` is passed as a function, the
  theorems use `Real.sqrt`.  The register codec is also given in binary floating
  point (`decodeAxisFloat`, `ReadGyroDataFloat`: round to nearest, ties to even,
  `double` for the product and `float` for the stored value).
* `int`, `int16_t`, `int8_t` values are integers; conversions to a narrower type and
  arithmetic on `int` are followed by an explicit two's complement reduction.
* The two global arrays `float [40][3]` are functions `Fin 40 → Fin 3 → α`.  An
  array expression used with a run-time index is read through `rowView`, which
  returns the stored row for an index in `0..39` and, for any other index, the
  contents `mem k` of whatever memory lies there (unspecified, universally
  quantified in every theorem).
* The bytes returned by the SPI transfers are the inputs of the program: one
  `RawRegs` record (six bytes) per iteration of the main loop.
* LCD drawing, `printf` and serial writes have no effect on the program variables;
  of the calls made in an iteration only the facts "the estimator was called" and
  "the 40 lines were sent" are recorded, in a `TickTrace`.
-/

namespace GyroDistance

/-! ## Constants (`#define`s and initialised globals) -/

/-- `#define MAX_GYRO 500`. -/
def MAX_GYRO : Int := 500

/-- `#define MIN_GYRO -500`. -/
def MIN_GYRO : Int := -500

/-- `int16_t zero_X = 13;`. -/
def zero_X : Int := 13

/-- `int16_t zero_Y = 22;`. -/
def zero_Y : Int := 22

/-- `int16_t zero_Z = 3;`. -/
def zero_Z : Int := 3

/-- Largest value of a 32-bit `int`. -/
def INT_MAX : Int := 2147483647

section Floats

variable {α : Type} [LinearOrderedField α]

/-- `#define FS_500_SENSITIVITY 0.0175`. -/
def FS_500_SENSITIVITY : α := 0.0175

/-- `#define RADIUS_X 2`. -/
def RADIUS_X : α := 2

/-- `#define RADIUS_Y 2`. -/
def RADIUS_Y : α := 2

/-- `#define RADIUS_Z 0.55`. -/
def RADIUS_Z : α := 0.55

end Floats

/-! ## Data model -/

/-- A `float [3]` buffer: one value per axis x, y, z. -/
abbrev Vec3 (α : Type) := Fin 3 → α

/-- A `float [40][3]` array: 40 rows of three axes. -/
abbrev Window (α : Type) := Fin 40 → Vec3 α

/-- The expression `a[k]` for a run-time `int` index `k`: the stored row when `k`
is one of the 40 rows, the contents `mem k` of the memory that lies there
otherwise. -/
def rowView {α : Type} (mem : Int → Vec3 α) (a : Window α) (k : Int) : Vec3 α :=
  if h : 0 ≤ k ∧ k < 40 then a ⟨k.toNat, by omega⟩ else mem k

/-- The bytes the six SPI read transfers of one iteration return
(low and high byte of the x, y and z registers). -/
structure RawRegs where
  xl : Nat
  xh : Nat
  yl : Nat
  yh : Nat
  zl : Nat
  zh : Nat
deriving DecidableEq, Repr

/-! ## Register codec -/

/-- Conversion of an `int` to `int16_t`: reduction modulo `2^16` into
`-32768 .. 32767`. -/
def toInt16 (x : Int) : Int := (x + 32768) % 65536 - 32768

/-- Result of an `int` operation: reduction modulo `2^32` into
`-2147483648 .. 2147483647`. -/
def toInt32 (x : Int) : Int := (x + 2147483648) % 4294967296 - 2147483648

/-- `int16_t ReadData(int REG_ADDRESS)`, as a function of the two bytes `low` and
`high` that the SPI transfers return: `data = (high << 8) | low; return data;`. -/
def ReadData (low high : Nat) : Int :=
  let data : Int := (((high <<< 8) ||| low : Nat) : Int)
  toInt16 data

/-- One axis of `ReadGyroData`: `(x - zero_X) * FS_500_SENSITIVITY`, the
subtraction done on `int` after integer promotion, the product taken exactly in
the field `α` (no rounding; the rounding of the code is in `decodeAxisFloat`). -/
def decodeAxis {α : Type} [LinearOrderedField α] (r zero : Int) : α :=
  ((toInt32 (r - zero) : Int) : α) * FS_500_SENSITIVITY

/-- `void ReadGyroData(float *xyz)` (with `CALIBRATION` 0): the three axes read
through `ReadData` and decoded, in exact arithmetic (`ReadGyroDataFloat` is the
same function in binary floating point). -/
def ReadGyroData {α : Type} [LinearOrderedField α] (raw : RawRegs) : Vec3 α :=
  let x := ReadData raw.xl raw.xh
  let y := ReadData raw.yl raw.yh
  let z := ReadData raw.zl raw.zh
  ![decodeAxis x zero_X, decodeAxis y zero_Y, decodeAxis z zero_Z]

/-! ## Sample conditioner -/

/-- The C loop `for (int i = lo; i < hi; i++) body`, as a state transformer. -/
def forLoop {σ : Type} (lo hi : Nat) (body : Nat → σ → σ) (s : σ) : σ :=
  (List.range' lo (hi - lo)).foldl (fun acc i => body i acc) s

/-- Body of the first loop of `ProcessGyroData`:
`if (GyroXYZ[i] > MAX_GYRO || GyroXYZ[i] < MIN_GYRO) GyroXYZ[i] = 0;`. -/
def clampStep {α : Type} [LinearOrderedField α] (i : Nat) (GyroXYZ : Vec3 α) : Vec3 α :=
  if h : i < 3 then
    if GyroXYZ ⟨i, h⟩ > (MAX_GYRO : α) ∨ GyroXYZ ⟨i, h⟩ < (MIN_GYRO : α) then
      Function.update GyroXYZ ⟨i, h⟩ 0
    else GyroXYZ
  else GyroXYZ

/-- `void ProcessGyroData(float *GyroXYZ, float *linearVelocity, int sampleIndex)`.
`samples` is the global array as the function sees it (indexed by an `int`).
Returns the updated `GyroXYZ` and the `linearVelocity` it writes. -/
def ProcessGyroData {α : Type} [LinearOrderedField α] (samples : Int → Vec3 α)
    (GyroXYZ : Vec3 α) (sampleIndex : Int) : Vec3 α × Vec3 α :=
  let GyroXYZ := forLoop 0 3 clampStep GyroXYZ
  let linearVelocity : Vec3 α :=
    if sampleIndex = 0 then
      ![0, 0, 0]
    else
      ![(samples (sampleIndex - 1) 0 - GyroXYZ 0) * (RADIUS_X * 0.001),
        (samples (sampleIndex - 1) 1 - GyroXYZ 1) * (RADIUS_Y * 0.001),
        (samples (sampleIndex - 1) 2 - GyroXYZ 2) * (RADIUS_Z * 0.001)]
  (GyroXYZ, linearVelocity)

/-! ## Distance estimator -/

/-- Body of the loop of `CalculateAndDisplayDistance` for row `i`: the three
displacements over half a second and the Euclidean norm added to `globDist`. -/
def distanceStep {α : Type} [LinearOrderedField α] (sqrt : α → α)
    (linearVelStorage : Int → Vec3 α) (i : Nat) (globDist : α) : α :=
  let x_dist := linearVelStorage i 0 * 0.5
  let y_dist := linearVelStorage i 1 * 0.5
  let z_dist := linearVelStorage i 2 * 0.5
  let dist := sqrt ((x_dist * x_dist) + (y_dist * y_dist) + (z_dist * z_dist))
  globDist + dist

/-- `void CalculateAndDisplayDistance(float linearVelStorage[][3], double &globDist)`:
the new value of `globDist`. -/
def CalculateAndDisplayDistance {α : Type} [LinearOrderedField α] (sqrt : α → α)
    (linearVelStorage : Int → Vec3 α) (globDist : α) : α :=
  let globDist := forLoop 1 40 (distanceStep sqrt linearVelStorage) globDist
  let globDist := globDist - 0.035
  let globDist := if globDist < 0 then 0 else globDist
  globDist / 0.165

/-! ## The main loop -/

/-- The program variables that live across iterations of `while (1)` in `main`:
the globals `samples`, `linearVelStorage`, `dataCollected`, `dataSent`, `globDist`
and the local `sampleIndex`. -/
structure MainState (α : Type) where
  sampleIndex : Int
  samples : Window α
  linearVelStorage : Window α
  dataCollected : Int
  dataSent : Int
  globDist : α

/-- What one iteration of the loop did: the contents of the buffers `GyroXYZ` and
`linearVelocity` after `ProcessGyroData`, whether `CalculateAndDisplayDistance`
was called, and the arguments `i, samples[i]` of the `sprintf` calls of the batch
report when the report block ran. -/
structure TickTrace (α : Type) where
  GyroXYZ : Vec3 α
  linearVelocity : Vec3 α
  calcCalled : Bool
  report : Option (List (Nat × Vec3 α))

/-- State at program start: `sampleIndex = 0` and zero-initialised globals. -/
def initialState {α : Type} [LinearOrderedField α] : MainState α :=
  { sampleIndex := 0
    samples := fun _ _ => 0
    linearVelStorage := fun _ _ => 0
    dataCollected := 0
    dataSent := 0
    globDist := 0 }

/-- The block `if (sampleIndex < 40) { samples[sampleIndex][i] = GyroXYZ[i];
linearVelStorage[sampleIndex][i] = linearVelocity[i]; }` (for `i = 0, 1, 2`).
A store at a negative row has no defined behaviour: `none`. -/
def storeSample {α : Type} (s : MainState α) (GyroXYZ linearVelocity : Vec3 α) :
    Option (MainState α) :=
  if s.sampleIndex < 40 then
    if h : 0 ≤ s.sampleIndex ∧ s.sampleIndex < 40 then
      some { s with
        samples := Function.update s.samples ⟨s.sampleIndex.toNat, by omega⟩ GyroXYZ
        linearVelStorage :=
          Function.update s.linearVelStorage ⟨s.sampleIndex.toNat, by omega⟩ linearVelocity }
    else none
  else some s

/-- The block `if (sampleIndex == 40) { CalculateAndDisplayDistance(linearVelStorage,
globDist); dataCollected = 1; sampleIndex++; }`. -/
def estimateBlock {α : Type} [LinearOrderedField α] (sqrt : α → α) (mem : Int → Vec3 α)
    (s : MainState α) : MainState α :=
  if s.sampleIndex = 40 then
    { s with
      globDist := CalculateAndDisplayDistance sqrt (rowView mem s.linearVelStorage) s.globDist
      dataCollected := 1
      sampleIndex := s.sampleIndex + 1 }
  else s

/-- The arguments of the 40 `sprintf` calls of the batch report:
`i, samples[i][0], samples[i][1], samples[i][2]` for `i = 0 .. 39`. -/
def reportLines {α : Type} (mem : Int → Vec3 α) (samples : Window α) : List (Nat × Vec3 α) :=
  (List.range' 0 40).map fun i => (i, rowView mem samples i)

/-- The block `if (dataCollected == 1 && dataSent == 0) { ...; dataSent = 1; }`. -/
def reportBlock {α : Type} (mem : Int → Vec3 α) (s : MainState α) :
    MainState α × Option (List (Nat × Vec3 α)) :=
  if s.dataCollected = 1 ∧ s.dataSent = 0 then
    ({ s with dataSent := 1 }, some (reportLines mem s.samples))
  else (s, none)

/-- The statement `sampleIndex++;` that ends an iteration.  Overflow of the `int`
has no defined behaviour: `none`. -/
def incrementIndex {α : Type} (s : MainState α) : Option (MainState α) :=
  if s.sampleIndex < INT_MAX then some { s with sampleIndex := s.sampleIndex + 1 } else none

/-- One iteration of `while (1)` in `main`, given the bytes `raw` that its SPI reads
return: the next state and the trace of the iteration. -/
def mainLoopBody {α : Type} [LinearOrderedField α] (sqrt : α → α) (mem : Int → Vec3 α)
    (raw : RawRegs) (s : MainState α) : Option (MainState α × TickTrace α) :=
  let GyroXYZ : Vec3 α := ReadGyroData raw
  let p := ProcessGyroData (rowView mem s.samples) GyroXYZ s.sampleIndex
  match storeSample s p.1 p.2 with
  | none => none
  | some s1 =>
    let s2 := estimateBlock sqrt mem s1
    let r := reportBlock mem s2
    match incrementIndex r.1 with
    | none => none
    | some s3 =>
      some (s3, { GyroXYZ := p.1
                  linearVelocity := p.2
                  calcCalled := decide (s1.sampleIndex = 40)
                  report := r.2 })

/-- The state after `n` iterations of the main loop from program start, the
iteration numbered `t` (from 0) reading the bytes `input t`. -/
def runMain {α : Type} [LinearOrderedField α] (sqrt : α → α) (mem : Int → Vec3 α)
    (input : Nat → RawRegs) : Nat → Option (MainState α)
  | 0 => some initialState
  | n + 1 => (runMain sqrt mem input n).bind fun s =>
      (mainLoopBody sqrt mem (input n) s).map Prod.fst

/-- The trace of the iteration numbered `t` (from 0) of the main loop. -/
def tickTrace {α : Type} [LinearOrderedField α] (sqrt : α → α) (mem : Int → Vec3 α)
    (input : Nat → RawRegs) (t : Nat) : Option (TickTrace α) :=
  (runMain sqrt mem input t).bind fun s =>
    (mainLoopBody sqrt mem (input t) s).map Prod.snd

/-- Number of calls of `CalculateAndDisplayDistance` made in the first `n`
iterations. -/
def calcCalls {α : Type} [LinearOrderedField α] (sqrt : α → α) (mem : Int → Vec3 α)
    (input : Nat → RawRegs) (n : Nat) : Nat :=
  (List.range n).countP fun t =>
    match tickTrace sqrt mem input t with
    | some tr => tr.calcCalled
    | none => false

/-- Number of times the batch report was sent in the first `n` iterations. -/
def reportsSent {α : Type} [LinearOrderedField α] (sqrt : α → α) (mem : Int → Vec3 α)
    (input : Nat → RawRegs) (n : Nat) : Nat :=
  (List.range n).countP fun t =>
    match tickTrace sqrt mem input t with
    | some tr => tr.report.isSome
    | none => false

/-! ## The text of a report line -/

/-- `char message[30];`. -/
def messageSize : Nat := 30

/-- Pads with spaces on the left up to the field width of a conversion. -/
def padLeft (width : Nat) (cs : List Char) : List Char :=
  List.replicate (width - cs.length) ' ' ++ cs

/-- Pads with zeros on the left up to `width` digits. -/
def padZeros (width : Nat) (cs : List Char) : List Char :=
  List.replicate (width - cs.length) '0' ++ cs

/-- The natural number nearest to a non-negative rational, ties to even. -/
def roundHalfEven (q : ℚ) : Nat :=
  let f := ⌊q⌋.toNat
  let r := q - f
  if r < 1 / 2 then f
  else if 1 / 2 < r then f + 1
  else if f % 2 = 0 then f else f + 1

/-- The `printf` conversion `%2d`: sign, decimal digits, width at least 2. -/
def formatInt2 (i : Int) : List Char :=
  padLeft 2 (if i < 0 then '-' :: Nat.toDigits 10 i.natAbs else Nat.toDigits 10 i.natAbs)

/-- The `printf` conversion `%4.5f` of a finite value (a `float` is a rational
number): sign, integer part, point, five decimals, width at least 4. -/
def formatFixed5 (x : ℚ) : List Char :=
  let scaled := roundHalfEven (|x| * 100000)
  let body :=
    Nat.toDigits 10 (scaled / 100000) ++ '.' :: padZeros 5 (Nat.toDigits 10 (scaled % 100000))
  padLeft 4 (if x < 0 then '-' :: body else body)

/-- The characters `sprintf(message, "%2d sample:\nx value: %4.5f\ny value: %4.5f\nz
value: %4.5f\n\n\0", i, x, y, z)` writes before the terminating NUL. -/
def sprintfLine (i : Int) (x y z : ℚ) : List Char :=
  formatInt2 i ++ " sample:\nx value: ".toList ++ formatFixed5 x ++ "\ny value: ".toList
    ++ formatFixed5 y ++ "\nz value: ".toList ++ formatFixed5 z ++ "\n\n".toList

/-! ## The codec in binary floating point -/

/-- Rounding of a rational to the nearest binary floating-point number with `p`
significand bits, ties to even.  The exponent range is not limited: the values
rounded here are zero or normal numbers far from overflow and underflow. -/
def roundBinary (p : Nat) (q : ℚ) : ℚ :=
  if q = 0 then 0
  else
    let e : Int := Int.log 2 |q|
    let ulp : ℚ := 2 ^ (e - ((p : Int) - 1))
    let m : ℚ := (roundHalfEven (|q| / ulp) : ℚ) * ulp
    if q < 0 then -m else m

/-- Rounding to `double` (binary64, 53 significand bits). -/
def toDouble (q : ℚ) : ℚ := roundBinary 53 q

/-- Rounding to `float` (binary32, 24 significand bits). -/
def toFloat (q : ℚ) : ℚ := roundBinary 24 q

/-- One axis of `ReadGyroData` as the code computes it,
`xyz[0] = (x - zero_X) * FS_500_SENSITIVITY;`: the `int` difference converted to
`double` (exact), multiplied by the `double` constant `0.0175`, the `double`
product stored into a `float`. -/
def decodeAxisFloat (r zero : Int) : ℚ :=
  toFloat (toDouble (((toInt32 (r - zero) : Int) : ℚ) * toDouble 0.0175))

/-- `void ReadGyroData(float *xyz)` in binary floating point: the three `float`
values it stores, as rational numbers. -/
def ReadGyroDataFloat (raw : RawRegs) : Vec3 ℚ :=
  let x := ReadData raw.xl raw.xh
  let y := ReadData raw.yl raw.yh
  let z := ReadData raw.zl raw.zh
  ![decodeAxisFloat x zero_X, decodeAxisFloat y zero_Y, decodeAxisFloat z zero_Z]

/-! ## Reference definitions used in the statements -/

/-- The estimator as it would be with the sum taken over all 40 rows `0 .. 39`
(the code starts at row 1): same offset, floor and scale. -/
def distanceOverAllRows {α : Type} [LinearOrderedField α] (sqrt : α → α)
    (linearVelStorage : Int → Vec3 α) (globDist : α) : α :=
  let globDist := forLoop 0 40 (distanceStep sqrt linearVelStorage) globDist
  let globDist := globDist - 0.035
  let globDist := if globDist < 0 then 0 else globDist
  globDist / 0.165

/-- Norm of the half-second displacement of one row: the summand of the estimator. -/
def stepNorm {α : Type} [LinearOrderedField α] (sqrt : α → α) (row : Vec3 α) : α :=
  sqrt ((0.5 * row 0) ^ 2 + (0.5 * row 1) ^ 2 + (0.5 * row 2) ^ 2)

/-- The per-axis factor `radius * 0.001` of the linear velocity. -/
def radiusScale {α : Type} [LinearOrderedField α] : Vec3 α :=
  ![2 * 0.001, 2 * 0.001, 0.55 * 0.001]

/-- The conditioned (clamped) angular velocity of iteration `t`. -/
def conditionedAt {α : Type} [LinearOrderedField α] (input : Nat → RawRegs) (t : Nat) : Vec3 α :=
  forLoop 0 3 clampStep (ReadGyroData (input t))

/-- The linear velocity of iteration `t`, computed by `ProcessGyroData` from a
`samples` array whose row `k` holds the conditioned sample of iteration `k`. -/
def linearAt {α : Type} [LinearOrderedField α] (input : Nat → RawRegs) (t : Nat) : Vec3 α :=
  (ProcessGyroData (fun k => conditionedAt input k.toNat) (ReadGyroData (input t)) t).2

/-- The state after `n` iterations, in closed form. -/
def closedState {α : Type} [LinearOrderedField α] (sqrt : α → α) (mem : Int → Vec3 α)
    (input : Nat → RawRegs) (n : Nat) : MainState α :=
  { sampleIndex := if n ≤ 40 then n else n + 1
    samples := fun i => if i.val < n then conditionedAt input i.val else 0
    linearVelStorage := fun i => if i.val < n then linearAt input i.val else 0
    dataCollected := if 41 ≤ n then 1 else 0
    dataSent := if 41 ≤ n then 1 else 0
    globDist :=
      if 41 ≤ n then
        CalculateAndDisplayDistance sqrt (rowView mem fun i => linearAt input i.val) 0
      else 0 }

/-- The trace of iteration `t`, in closed form. -/
def closedTrace {α : Type} [LinearOrderedField α] (sqrt : α → α) (mem : Int → Vec3 α)
    (input : Nat → RawRegs) (t : Nat) : TickTrace α :=
  { GyroXYZ := conditionedAt input t
    linearVelocity :=
      (ProcessGyroData (rowView mem (closedState sqrt mem input t).samples)
        (ReadGyroData (input t)) (closedState sqrt mem input t).sampleIndex).2
    calcCalled := decide (t = 40)
    report :=
      if t = 40 then some (reportLines mem fun i => conditionedAt input i.val) else none }

/-- The all-zero register bytes, used as a concrete input. -/
def zeroRegs : RawRegs := ⟨0, 0, 0, 0, 0, 0⟩

/-- A concrete input stream whose x reading grows by one at every iteration. -/
def rampRegs (t : Nat) : RawRegs := ⟨t % 256, 0, 0, 0, 0, 0⟩

/-! ## Auxiliary lemmas -/

theorem forLoop_clampStep {α : Type} [LinearOrderedField α] (g : Vec3 α) (i : Fin 3) :
    forLoop 0 3 clampStep g i = if g i > 500 ∨ g i < -500 then 0 else g i := by
  have h0 : ∀ (v : Vec3 α) (j : Fin 3) (i : Fin 3), clampStep j.val v i =
      if i = j then (if v i > 500 ∨ v i < -500 then 0 else v i) else v i := by
    intro v j i
    have hj : (j : Nat) < 3 := j.isLt
    unfold clampStep
    simp only [hj, dite_true, MAX_GYRO, MIN_GYRO]
    by_cases hij : i = j
    · subst hij
      by_cases hc : v i > 500 ∨ v i < -500
      · simp [hc]
      · simp [hc]
    · by_cases hc : v j > 500 ∨ v j < -500
      · simp [hc, hij, Function.update_noteq hij]
      · simp [hc, hij]
  have e : forLoop 0 3 clampStep g =
      clampStep (2 : Fin 3).val (clampStep (1 : Fin 3).val (clampStep (0 : Fin 3).val g)) := by
    simp [forLoop, List.range']
  rw [e]
  simp only [h0]
  fin_cases i <;> simp

theorem ReadData_eq (low high : Nat) (hl : low < 256) (hh : high < 256) :
    ReadData low high =
      if 256 * high + low < 32768 then ((256 * high + low : Nat) : Int)
      else ((256 * high + low : Nat) : Int) - 65536 := by
  have e : (high <<< 8) ||| low = 256 * high + low := by
    have := Nat.mul_add_lt_is_or (i := 8) (b := low) (by simpa using hl) high
    rw [Nat.shiftLeft_eq, Nat.mul_comm]
    simpa using this.symm
  unfold ReadData toInt16
  simp only [e]
  split_ifs <;> omega


theorem distanceStep_eq {α : Type} [LinearOrderedField α] (sqrt : α → α)
    (v : Int → Vec3 α) (i : Nat) (g : α) :
    distanceStep sqrt v i g = g + stepNorm sqrt (v i) := by
  unfold distanceStep stepNorm
  simp only
  congr 2
  ring

theorem forLoop_add {α : Type} [LinearOrderedField α] (f : Nat → α) (lo n : Nat) (g : α) :
    (List.range' lo n).foldl (fun acc i => acc + f i) g
      = g + ∑ i ∈ Finset.range n, f (lo + i) := by
  induction n generalizing lo g with
  | zero => simp
  | succ n ih =>
    rw [List.range'_succ, List.foldl_cons, ih, Finset.sum_range_succ']
    have : ∀ i, f (lo + 1 + i) = f (lo + (i + 1)) := fun i => by congr 1; omega
    simp only [this, Nat.add_zero]
    ring

theorem rowView_succ {α : Type} (mem : Int → Vec3 α) (w : Window α) (i : Fin 39) :
    rowView mem w ((1 + (i : Nat) : Nat) : Int) = w i.succ := by
  have hi := i.isLt
  unfold rowView
  rw [dif_pos (by omega)]
  exact congrArg w (Fin.ext (by simp only [Int.toNat_ofNat, Fin.val_succ]; omega))

theorem Icc_one_eq : Finset.Icc (1 : Fin 40) 39 = Finset.univ.erase 0 := by
  ext i
  simp only [Finset.mem_Icc, Finset.mem_erase, Finset.mem_univ, and_true, Fin.le_def, ne_eq,
    Fin.ext_iff]
  have := i.isLt
  simp
  omega

theorem sum_rows_eq {α : Type} [LinearOrderedField α] (F : Vec3 α → α)
    (mem : Int → Vec3 α) (w : Window α) :
    ∑ i ∈ Finset.range 39, F (rowView mem w ((1 + i : Nat) : Int))
      = ∑ i ∈ Finset.Icc (1 : Fin 40) 39, F (w i) := by
  rw [Icc_one_eq, Finset.sum_erase_eq_sub (Finset.mem_univ _),
    Fin.sum_univ_succ, Finset.sum_range]
  simp only [rowView_succ]
  ring

theorem CalculateAndDisplayDistance_eq {α : Type} [LinearOrderedField α] (sqrt : α → α)
    (mem : Int → Vec3 α) (w : Window α) (g : α) :
    CalculateAndDisplayDistance sqrt (rowView mem w) g
      = max (g + (∑ i ∈ Finset.Icc (1 : Fin 40) 39, stepNorm sqrt (w i)) - 0.035) 0 / 0.165 := by
  unfold CalculateAndDisplayDistance forLoop
  simp only [distanceStep_eq]
  rw [forLoop_add (fun i => stepNorm sqrt (rowView mem w i)) 1 39 g, sum_rows_eq]
  congr 1
  split_ifs with h
  · exact (max_eq_right h.le).symm
  · exact (max_eq_left (not_lt.mp h)).symm


section ClosedForm

variable {α : Type} [LinearOrderedField α]

theorem ProcessGyroData_fst (samples : Int → Vec3 α) (g : Vec3 α) (k : Int) :
    (ProcessGyroData samples g k).1 = forLoop 0 3 clampStep g := rfl

theorem ProcessGyroData_snd_congr (s₁ s₂ : Int → Vec3 α) (g : Vec3 α) (k : Int)
    (h : k ≠ 0 → s₁ (k - 1) = s₂ (k - 1)) :
    (ProcessGyroData s₁ g k).2 = (ProcessGyroData s₂ g k).2 := by
  unfold ProcessGyroData
  by_cases hk : k = 0
  · simp [hk]
  · simp only [hk, if_false]
    rw [h hk]

theorem closed_linear (sqrt : α → α) (mem : Int → Vec3 α) (input : Nat → RawRegs) (t : Nat)
    (ht : t ≤ 40) :
    (ProcessGyroData (rowView mem (closedState sqrt mem input t).samples)
        (ReadGyroData (input t)) (closedState sqrt mem input t).sampleIndex).2
      = linearAt input t := by
  have hs : (closedState sqrt mem input t).sampleIndex = (t : Int) := by
    simp [closedState, ht]
  rw [hs]
  unfold linearAt
  apply ProcessGyroData_snd_congr
  intro h0
  have h1 : 1 ≤ t := by omega
  unfold rowView
  rw [dif_pos (by omega)]
  have e : ((t : Int) - 1).toNat = t - 1 := by omega
  simp only [closedState, e]
  rw [if_pos (by omega)]

theorem window_full (f : Nat → Vec3 α) (m : Nat) (hm : 40 ≤ m) :
    (fun i : Fin 40 => if i.val < m then f i.val else 0) = fun i => f i.val := by
  funext i
  rw [if_pos (by have := i.isLt; omega)]

theorem mainLoopBody_closed (sqrt : α → α) (mem : Int → Vec3 α) (input : Nat → RawRegs)
    (n : Nat) (hn : (n : Int) + 1 < INT_MAX) :
    mainLoopBody sqrt mem (input n) (closedState sqrt mem input n)
      = some (closedState sqrt mem input (n + 1), closedTrace sqrt mem input n) := by
  have hI : INT_MAX = 2147483647 := rfl
  rw [hI] at hn
  have hfst : (ProcessGyroData (rowView mem (closedState sqrt mem input n).samples)
      (ReadGyroData (input n)) (closedState sqrt mem input n).sampleIndex).1
        = conditionedAt input n := rfl
  rcases Nat.lt_trichotomy n 40 with hlt | heq | hgt
  · -- a tick that stores its sample
    have hlin := closed_linear sqrt mem input n (by omega)
    have hidx : (closedState sqrt mem input n).sampleIndex = (n : Int) := by
      simp [closedState, hlt.le]
    have hst : storeSample (closedState sqrt mem input n) (conditionedAt input n)
        (linearAt input n)
          = some { closedState sqrt mem input n with
              samples := (closedState sqrt mem input (n + 1)).samples
              linearVelStorage := (closedState sqrt mem input (n + 1)).linearVelStorage } := by
      unfold storeSample
      rw [if_pos (by rw [hidx]; omega), dif_pos (by rw [hidx]; omega)]
      have hfin : (⟨(closedState sqrt mem input n).sampleIndex.toNat, by rw [hidx]; omega⟩ : Fin 40)
          = ⟨n, hlt⟩ := Fin.ext (by simp [hidx])
      simp only [hfin]
      congr 2
      · funext i
        by_cases hi : i = ⟨n, hlt⟩
        · subst hi
          simp [closedState]
        · have : i.val ≠ n := fun h => hi (Fin.ext h)
          rw [Function.update_noteq hi]
          simp only [closedState]
          by_cases h2 : i.val < n
          · rw [if_pos h2, if_pos (by omega)]
          · rw [if_neg h2, if_neg (by omega)]
      · funext i
        by_cases hi : i = ⟨n, hlt⟩
        · subst hi
          simp [closedState]
        · have : i.val ≠ n := fun h => hi (Fin.ext h)
          rw [Function.update_noteq hi]
          simp only [closedState]
          by_cases h2 : i.val < n
          · rw [if_pos h2, if_pos (by omega)]
          · rw [if_neg h2, if_neg (by omega)]
    unfold mainLoopBody
    simp only [hfst, hlin, hst]
    have h40 : ¬ ((n : Int) = 40) := by omega
    have h41 : ¬ (41 ≤ n) := by omega
    have hle : n ≤ 40 := by omega
    have hle' : n + 1 ≤ 40 := by omega
    have h41' : ¬ (41 ≤ n + 1) := by omega
    have hlt' : (n : Int) < 2147483647 := by omega
    have hn40 : ¬ (n = 40) := by omega
    simp [estimateBlock, reportBlock, incrementIndex, closedState, closedTrace, hI, h40, h41,
      hle, hle', h41', hlt', hn40, hlin]
    rw [← hlin]
    simp [closedState, hle]
  · -- the tick that estimates and reports
    subst heq
    have hw1 : (fun i : Fin 40 => if i.val < 40 then conditionedAt (α := α) input i.val else 0)
        = fun i => conditionedAt input i.val := by
      funext i
      rw [if_pos i.isLt]
    have hw2 : (fun i : Fin 40 => if i.val < 40 then linearAt (α := α) input i.val else 0)
        = fun i => linearAt input i.val := by
      funext i
      rw [if_pos i.isLt]
    unfold mainLoopBody
    simp [storeSample, estimateBlock, reportBlock, incrementIndex, closedState, closedTrace, hI,
      hw1, hw2]
    exact ⟨⟨(window_full _ 41 (by omega)).symm, (window_full _ 41 (by omega)).symm⟩, rfl⟩
  · -- a tick after completion
    have h1 : ¬ (n ≤ 40) := by omega
    have h2 : 41 ≤ n := by omega
    have h3 : ¬ ((n : Int) + 1 < 40) := by omega
    have h4 : ¬ ((n : Int) + 1 = 40) := by omega
    have h5 : ¬ (n + 1 ≤ 40) := by omega
    have h6 : 41 ≤ n + 1 := by omega
    have h7 : ¬ (n = 40) := by omega
    have h8 : (n : Int) + 1 < 2147483647 := hn
    unfold mainLoopBody
    simp [storeSample, estimateBlock, reportBlock, incrementIndex, closedState, closedTrace, hI,
      h1, h2, h3, h4, h5, h6, h7, h8]
    refine ⟨⟨?_, ?_⟩, rfl⟩
    · rw [window_full _ n (by omega), window_full _ (n + 1) (by omega)]
    · rw [window_full _ n (by omega), window_full _ (n + 1) (by omega)]

theorem runMain_closed (sqrt : α → α) (mem : Int → Vec3 α) (input : Nat → RawRegs)
    (n : Nat) (hn : (n : Int) < INT_MAX) :
    runMain sqrt mem input n = some (closedState sqrt mem input n) := by
  induction n with
  | zero =>
    simp only [runMain, initialState, closedState]
    congr 1
  | succ n ih =>
    have hI : INT_MAX = 2147483647 := rfl
    have hn' : (n : Int) + 1 < INT_MAX := by
      rw [hI] at hn ⊢
      omega
    rw [runMain, ih (by rw [hI] at hn ⊢; omega)]
    simp [mainLoopBody_closed sqrt mem input n hn']

theorem tickTrace_closed (sqrt : α → α) (mem : Int → Vec3 α) (input : Nat → RawRegs)
    (t : Nat) (ht : (t : Int) + 1 < INT_MAX) :
    tickTrace sqrt mem input t = some (closedTrace sqrt mem input t) := by
  have hI : INT_MAX = 2147483647 := rfl
  unfold tickTrace
  rw [runMain_closed sqrt mem input t (by rw [hI] at ht ⊢; omega)]
  simp [mainLoopBody_closed sqrt mem input t ht]

theorem closedState_store (sqrt : α → α) (mem : Int → Vec3 α) (input : Nat → RawRegs)
    (n : Nat) (h : n < 40) :
    (closedState sqrt mem input (n + 1)).samples
        = Function.update (closedState sqrt mem input n).samples ⟨n, h⟩ (conditionedAt input n)
    ∧ (closedState sqrt mem input (n + 1)).linearVelStorage
        = Function.update (closedState sqrt mem input n).linearVelStorage ⟨n, h⟩
            (linearAt input n) := by
  constructor
  · funext i
    by_cases hi : i = ⟨n, h⟩
    · subst hi
      simp [closedState]
    · have : i.val ≠ n := fun e => hi (Fin.ext e)
      rw [Function.update_noteq hi]
      simp only [closedState]
      by_cases h2 : i.val < n
      · rw [if_pos h2, if_pos (by omega)]
      · rw [if_neg h2, if_neg (by omega)]
  · funext i
    by_cases hi : i = ⟨n, h⟩
    · subst hi
      simp [closedState]
    · have : i.val ≠ n := fun e => hi (Fin.ext e)
      rw [Function.update_noteq hi]
      simp only [closedState]
      by_cases h2 : i.val < n
      · rw [if_pos h2, if_pos (by omega)]
      · rw [if_neg h2, if_neg (by omega)]

theorem calcCalls_closed (sqrt : α → α) (mem : Int → Vec3 α) (input : Nat → RawRegs)
    (n : Nat) (hn : (n : Int) < INT_MAX) :
    calcCalls sqrt mem input n = if 41 ≤ n then 1 else 0 := by
  have hI : INT_MAX = 2147483647 := rfl
  induction n with
  | zero => simp [calcCalls]
  | succ n ih =>
    have ih' := ih (by rw [hI] at hn ⊢; omega)
    have ht := tickTrace_closed sqrt mem input n (by rw [hI] at hn ⊢; omega)
    unfold calcCalls at ih' ⊢
    rw [List.range_succ, List.countP_append, ih', List.countP_singleton, ht]
    simp only [closedTrace]
    by_cases h40 : n = 40
    · subst h40
      simp
    · simp only [h40, decide_False, Bool.false_eq_true, if_false, Nat.add_zero]
      clear ih ih'
      split_ifs <;> omega

theorem reportsSent_closed (sqrt : α → α) (mem : Int → Vec3 α) (input : Nat → RawRegs)
    (n : Nat) (hn : (n : Int) < INT_MAX) :
    reportsSent sqrt mem input n = if 41 ≤ n then 1 else 0 := by
  have hI : INT_MAX = 2147483647 := rfl
  induction n with
  | zero => simp [reportsSent]
  | succ n ih =>
    have ih' := ih (by rw [hI] at hn ⊢; omega)
    have ht := tickTrace_closed sqrt mem input n (by rw [hI] at hn ⊢; omega)
    unfold reportsSent at ih' ⊢
    rw [List.range_succ, List.countP_append, ih', List.countP_singleton, ht]
    simp only [closedTrace]
    by_cases h40 : n = 40
    · subst h40
      simp
    · simp only [h40, if_false, Option.isSome_none, Bool.false_eq_true, Nat.add_zero]
      clear ih ih'
      split_ifs <;> omega

end ClosedForm

theorem forLoop_from_zero {σ : Type} (body : Nat → σ → σ) (s : σ) :
    forLoop 0 40 body s = forLoop 1 40 body (body 0 s) := by
  unfold forLoop
  rw [show 40 - 0 = 39 + 1 from rfl, List.range'_succ, List.foldl_cons]

theorem distanceStep_zero_row (v : Int → Vec3 ℝ) (i : Nat) (g : ℝ)
    (h : ∀ j, v i j = 0) : distanceStep Real.sqrt v i g = g := by
  unfold distanceStep
  simp [h]

theorem toDigitsCore_length (fuel n : Nat) (ds : List Char) :
    ds.length ≤ (Nat.toDigitsCore 10 fuel n ds).length
    ∧ (0 < fuel → ds.length + 1 ≤ (Nat.toDigitsCore 10 fuel n ds).length) := by
  induction fuel generalizing n ds with
  | zero => simp [Nat.toDigitsCore]
  | succ fuel ih =>
    simp only [Nat.toDigitsCore]
    split_ifs with h
    · simp
    · have := (ih (n / 10) ((n % 10).digitChar :: ds)).1
      simp only [List.length_cons] at this
      constructor
      · omega
      · intro _
        omega

theorem toDigits_length_pos (n : Nat) : 1 ≤ (Nat.toDigits 10 n).length := by
  have := (toDigitsCore_length (n + 1) n []).2 (Nat.succ_pos n)
  simpa [Nat.toDigits] using this

theorem padLeft_length (width : Nat) (cs : List Char) :
    width ≤ (padLeft width cs).length ∧ cs.length ≤ (padLeft width cs).length := by
  unfold padLeft
  simp only [List.length_append, List.length_replicate]
  omega

theorem padZeros_length (width : Nat) (cs : List Char) :
    width ≤ (padZeros width cs).length := by
  unfold padZeros
  simp only [List.length_append, List.length_replicate]
  omega

theorem formatInt2_length (i : Int) : 2 ≤ (formatInt2 i).length :=
  (padLeft_length 2 _).1

theorem formatFixed5_length (x : ℚ) : 7 ≤ (formatFixed5 x).length := by
  unfold formatFixed5
  simp only
  refine le_trans ?_ (padLeft_length 4 _).2
  have h1 := toDigits_length_pos (roundHalfEven (|x| * 100000) / 100000)
  have h2 := padZeros_length 5 (Nat.toDigits 10 (roundHalfEven (|x| * 100000) % 100000))
  split_ifs <;> simp only [List.length_cons, List.length_append] <;> omega

theorem formatFixed5_zero : formatFixed5 0 = ['0', '.', '0', '0', '0', '0', '0'] := by
  have h : roundHalfEven (|(0 : ℚ)| * 100000) = 0 := by
    simp [roundHalfEven]
  unfold formatFixed5
  simp only [h, lt_self_iff_false, if_false]
  decide

theorem rowView_fin {α : Type} (mem : Int → Vec3 α) (w : Window α) (i : Fin 40) :
    rowView mem w ((i.val : Nat) : Int) = w i := by
  have hi := i.isLt
  unfold rowView
  rw [dif_pos (by omega)]
  exact congrArg w (Fin.ext (by simp only [Int.toNat_ofNat]))

theorem reportLines_eq {α : Type} (mem : Int → Vec3 α) (w : Window α) :
    reportLines mem w = (List.finRange 40).map fun i => (i.val, w i) := by
  unfold reportLines
  rw [← List.range_eq_range', ← List.map_coe_finRange, List.map_map]
  apply List.map_congr_left
  intro i _
  simp only [Function.comp_apply, rowView_fin]

theorem roundHalfEven_err (q : ℚ) (hq : 0 ≤ q) : |(roundHalfEven q : ℚ) - q| ≤ 1 / 2 := by
  have hf0 : 0 ≤ ⌊q⌋ := Int.floor_nonneg.mpr hq
  have hcast : ((⌊q⌋.toNat : ℕ) : ℚ) = (⌊q⌋ : ℚ) := by
    have : ((⌊q⌋.toNat : ℕ) : ℤ) = ⌊q⌋ := Int.toNat_of_nonneg hf0
    exact_mod_cast congrArg (fun z : ℤ => (z : ℚ)) this
  have h1 : (⌊q⌋ : ℚ) ≤ q := Int.floor_le q
  have h2 : q < (⌊q⌋ : ℚ) + 1 := Int.lt_floor_add_one q
  unfold roundHalfEven
  simp only
  split_ifs with ha hb hc
  · rw [hcast, abs_le]; constructor <;> linarith
  · push_cast; rw [hcast, abs_le]; constructor <;> linarith
  · rw [hcast, abs_le]; constructor <;> linarith
  · push_cast; rw [hcast, abs_le]; constructor <;> linarith

theorem roundHalfEven_eq (q : ℚ) (N : ℕ) (h1 : (N : ℚ) - 1 / 2 < q) (h2 : q < N + 1 / 2)
    (hq : 0 ≤ q) : roundHalfEven q = N := by
  have hf0 : 0 ≤ ⌊q⌋ := Int.floor_nonneg.mpr hq
  have hcast : ((⌊q⌋.toNat : ℕ) : ℚ) = (⌊q⌋ : ℚ) := by
    have : ((⌊q⌋.toNat : ℕ) : ℤ) = ⌊q⌋ := Int.toNat_of_nonneg hf0
    exact_mod_cast congrArg (fun z : ℤ => (z : ℚ)) this
  by_cases hN : (N : ℚ) ≤ q
  · have hfl : ⌊q⌋ = (N : ℤ) := by
      rw [Int.floor_eq_iff]
      constructor
      · exact_mod_cast hN
      · push_cast; linarith
    have ht : ⌊q⌋.toNat = N := by rw [hfl]; simp
    unfold roundHalfEven
    simp only [ht]
    rw [if_pos (by linarith)]
  · push_neg at hN
    have hNpos : 1 ≤ N := by
      rcases Nat.eq_zero_or_pos N with h | h
      · subst h; simp at hN; linarith
      · exact h
    have hfl : ⌊q⌋ = (N : ℤ) - 1 := by
      rw [Int.floor_eq_iff]
      constructor
      · push_cast; linarith
      · push_cast; linarith
    have ht : ⌊q⌋.toNat = N - 1 := by rw [hfl]; omega
    have hc : ((N - 1 : ℕ) : ℚ) = (N : ℚ) - 1 := by
      rw [Nat.cast_sub hNpos]; simp
    unfold roundHalfEven
    simp only [ht, hc]
    rw [if_neg (by linarith), if_pos (by linarith)]
    omega

theorem roundBinary_err (p : ℕ) (q : ℚ) : |roundBinary p q - q| ≤ |q| / 2 ^ p := by
  unfold roundBinary
  by_cases h0 : q = 0
  · simp [h0]
  · rw [if_neg h0]
    simp only
    have habs : 0 < |q| := abs_pos.mpr h0
    set e : ℤ := Int.log 2 |q| with he
    set ulp : ℚ := 2 ^ (e - ((p : ℤ) - 1)) with hulp
    have hulp_pos : 0 < ulp := zpow_pos (by norm_num) _
    have hle : (2 : ℚ) ^ e ≤ |q| := by
      have := Int.zpow_log_le_self (b := 2) (by norm_num) habs
      simpa using this
    have hulp2 : ulp / 2 = 2 ^ e / 2 ^ p := by
      rw [hulp, zpow_sub₀ (by norm_num), zpow_sub₀ (by norm_num), zpow_natCast, zpow_one]
      field_simp
      ring
    have hN := roundHalfEven_err (|q| / ulp) (div_nonneg habs.le hulp_pos.le)
    have hm : abs ((roundHalfEven (|q| / ulp) : ℚ) * ulp - |q|) ≤ ulp / 2 := by
      have e1 : (roundHalfEven (|q| / ulp) : ℚ) * ulp - |q|
          = ((roundHalfEven (|q| / ulp) : ℚ) - |q| / ulp) * ulp := by
        field_simp
      rw [e1, abs_mul, abs_of_pos hulp_pos]
      calc |(roundHalfEven (|q| / ulp) : ℚ) - |q| / ulp| * ulp ≤ 1 / 2 * ulp :=
            mul_le_mul_of_nonneg_right hN hulp_pos.le
        _ = ulp / 2 := by ring
    have hbound : ulp / 2 ≤ |q| / 2 ^ p := by
      rw [hulp2]
      exact div_le_div_of_nonneg_right hle (by positivity)
    by_cases hneg : q < 0
    · rw [if_pos hneg]
      have : -((roundHalfEven (|q| / ulp) : ℚ) * ulp) - q
          = -((roundHalfEven (|q| / ulp) : ℚ) * ulp - |q|) := by
        rw [abs_of_neg hneg]; ring
      rw [this, abs_neg]
      exact hm.trans hbound
    · rw [if_neg hneg]
      have hq : |q| = q := abs_of_nonneg (not_lt.mp hneg)
      have : (roundHalfEven (|q| / ulp) : ℚ) * ulp - q
          = (roundHalfEven (|q| / ulp) : ℚ) * ulp - |q| := by rw [hq]
      rw [this]
      exact hm.trans hbound

theorem log_two_eq (r : ℚ) (e : Int) (hr : 0 < r) (h1 : (2:ℚ)^e ≤ r) (h2 : r < (2:ℚ)^(e+1)) :
    Int.log 2 r = e := by
  apply le_antisymm
  · have := (Int.lt_zpow_iff_log_lt (b := 2) (by norm_num) hr (x := e + 1)).1 (by exact_mod_cast h2)
    omega
  · exact (Int.zpow_le_iff_le_log (b := 2) (by norm_num) hr).1 (by exact_mod_cast h1)

theorem roundBinary_eq (p : ℕ) (q : ℚ) (e : ℤ) (N : ℕ) (hq : q ≠ 0)
    (h1 : (2 : ℚ) ^ e ≤ |q|) (h2 : |q| < (2 : ℚ) ^ (e + 1))
    (h3 : (N : ℚ) - 1 / 2 < |q| / 2 ^ (e - ((p : ℤ) - 1)))
    (h4 : |q| / 2 ^ (e - ((p : ℤ) - 1)) < N + 1 / 2) :
    roundBinary p q
      = if q < 0 then -((N : ℚ) * 2 ^ (e - ((p : ℤ) - 1))) else (N : ℚ) * 2 ^ (e - ((p : ℤ) - 1)) := by
  have habs : 0 < |q| := abs_pos.mpr hq
  unfold roundBinary
  rw [if_neg hq]
  simp only
  rw [log_two_eq |q| e habs h1 h2,
    roundHalfEven_eq _ N h3 h4 (div_nonneg habs.le (zpow_pos (by norm_num) _).le)]


theorem toDouble_sensitivity : toDouble 0.0175 = 1261007895663739 / 72057594037927936 := by
  unfold toDouble
  rw [roundBinary_eq 53 0.0175 (-6) 5044031582654956 (by norm_num) (by norm_num [abs_of_pos])
    (by norm_num [abs_of_pos]) (by norm_num [abs_of_pos]) (by norm_num [abs_of_pos])]
  norm_num

theorem decodeAxisFloat_min : decodeAxisFloat (-32768) 13 = -573.66748046875 := by
  have e0 : toInt32 (-32768 - 13) = -32781 := by decide
  unfold decodeAxisFloat
  rw [e0, toDouble_sensitivity]
  have hd : toDouble (((-32781 : ℤ) : ℚ) * (1261007895663739 / 72057594037927936))
      = -(5046032693817508 / 8796093022208) := by
    unfold toDouble
    rw [roundBinary_eq 53 _ 9 5046032693817508 (by norm_num) (by norm_num [abs_of_neg])
      (by norm_num [abs_of_neg]) (by norm_num [abs_of_neg]) (by norm_num [abs_of_neg])]
    norm_num
  rw [hd]
  unfold toFloat
  rw [roundBinary_eq 24 _ 9 9398968 (by norm_num) (by norm_num [abs_of_pos])
    (by norm_num [abs_of_pos]) (by norm_num [abs_of_pos]) (by norm_num [abs_of_pos])]
  norm_num

theorem decodeAxisFloat_err (r z : Int) (h1 : -32768 ≤ r) (h2 : r ≤ 32767) (h3 : 0 ≤ z)
    (h4 : z ≤ 22) :
    |decodeAxisFloat r z - ((r : ℚ) - z) * 0.0175| ≤ |((r : ℚ) - z) * 0.0175| / 2 ^ 23 := by
  have e : toInt32 (r - z) = r - z := by
    unfold toInt32
    omega
  unfold decodeAxisFloat toFloat toDouble
  rw [e]
  push_cast
  set n : ℚ := (r : ℚ) - z with hn
  set c : ℚ := roundBinary 53 0.0175 with hc
  set d : ℚ := roundBinary 53 (n * c) with hd
  have a1 : |c - 0.0175| ≤ |(0.0175 : ℚ)| / 2 ^ 53 := roundBinary_err 53 0.0175
  have a3 : |d - n * c| ≤ |n * c| / 2 ^ 53 := roundBinary_err 53 (n * c)
  have a5 : |roundBinary 24 d - d| ≤ |d| / 2 ^ 24 := roundBinary_err 24 d
  have b1 : |n * c - n * 0.0175| ≤ |n * 0.0175| / 2 ^ 53 := by
    have : n * c - n * 0.0175 = n * (c - 0.0175) := by ring
    rw [this, abs_mul, abs_mul, mul_div_assoc]
    exact mul_le_mul_of_nonneg_left a1 (abs_nonneg n)
  have hV : 0 ≤ |n * 0.0175| := abs_nonneg _
  have b2 : |n * c| ≤ |n * 0.0175| + |n * c - n * 0.0175| := by
    have := abs_add (n * 0.0175) (n * c - n * 0.0175)
    simpa using this
  have b4 : |d| ≤ |n * c| + |d - n * c| := by
    have := abs_add (n * c) (d - n * c)
    simpa using this
  have b6 : |roundBinary 24 d - n * 0.0175|
      ≤ |roundBinary 24 d - d| + |d - n * c| + |n * c - n * 0.0175| := by
    have t1 := abs_add (roundBinary 24 d - d) (d - n * c)
    have t2 := abs_add (roundBinary 24 d - d + (d - n * c)) (n * c - n * 0.0175)
    have e1 : roundBinary 24 d - d + (d - n * c) + (n * c - n * 0.0175)
        = roundBinary 24 d - n * 0.0175 := by ring
    rw [e1] at t2
    linarith
  norm_num at a3 a5 b1 ⊢
  linarith

/-! ## Claims -/

/-- C1. Entered with `globDist = 0`, `CalculateAndDisplayDistance` leaves
`globDist = max (S - 0.035) 0 / 0.165`, where `S` is the sum over the rows
`i = 1 .. 39` (row 0 excluded) of `sqrt ((0.5 v[i][0])² + (0.5 v[i][1])² + (0.5 v[i][2])²)`,
over the reals.  In particular a window whose rows `1 .. 39` are zero gives `0`
whatever row 0 holds, and a window with `(1, 0, 0)` in every row `1 .. 39` gives
`(19.5 - 0.035) / 0.165`. -/
theorem calculateAndDisplayDistance_closed_form (mem : Int → Vec3 ℝ) (v : Window ℝ)
    (row0 : Vec3 ℝ) :
    CalculateAndDisplayDistance Real.sqrt (rowView mem v) 0
        = max ((∑ i ∈ Finset.Icc (1 : Fin 40) 39,
            Real.sqrt ((0.5 * v i 0) ^ 2 + (0.5 * v i 1) ^ 2 + (0.5 * v i 2) ^ 2)) - 0.035) 0
          / 0.165
    ∧ CalculateAndDisplayDistance Real.sqrt
        (rowView mem fun i => if i = 0 then row0 else ![0, 0, 0]) 0 = 0
    ∧ CalculateAndDisplayDistance Real.sqrt
        (rowView mem fun i => if i = 0 then row0 else ![1, 0, 0]) 0 = (19.5 - 0.035) / 0.165 := by
  have key : ∀ w : Window ℝ, CalculateAndDisplayDistance Real.sqrt (rowView mem w) 0
      = max ((∑ i ∈ Finset.Icc (1 : Fin 40) 39, stepNorm Real.sqrt (w i)) - 0.035) 0 / 0.165 := by
    intro w
    rw [CalculateAndDisplayDistance_eq, zero_add]
  have hne : ∀ i ∈ Finset.Icc (1 : Fin 40) 39, i ≠ 0 := by
    intro i hi h0
    rw [h0] at hi
    simp at hi
  refine ⟨key v, ?_, ?_⟩
  · rw [key]
    have hsum : ∑ i ∈ Finset.Icc (1 : Fin 40) 39,
        stepNorm Real.sqrt ((fun i : Fin 40 => if i = 0 then row0 else ![0, 0, 0]) i) = 0 := by
      apply Finset.sum_eq_zero
      intro i hi
      simp [stepNorm, hne i hi]
    rw [hsum]
    norm_num
  · rw [key]
    have hsum : ∑ i ∈ Finset.Icc (1 : Fin 40) 39,
        stepNorm Real.sqrt ((fun i : Fin 40 => if i = 0 then row0 else ![1, 0, 0]) i)
          = ∑ _i ∈ Finset.Icc (1 : Fin 40) 39, (0.5 : ℝ) := by
      apply Finset.sum_congr rfl
      intro i hi
      simp only [stepNorm, hne i hi, if_false]
      have : ((0.5 : ℝ) * 1) ^ 2 + (0.5 * 0) ^ 2 + (0.5 * 0) ^ 2 = 0.5 ^ 2 := by norm_num
      simp only [Matrix.cons_val_zero, Matrix.cons_val_one, Matrix.head_cons, Matrix.cons_val_two,
        Matrix.tail_cons]
      rw [this, Real.sqrt_sq (by norm_num)]
    have hcard : (Finset.Icc (1 : Fin 40) 39).card = 39 := by
      rw [Fin.card_Icc]
      rfl
    rw [hsum, Finset.sum_const, hcard, max_eq_left (by norm_num)]
    norm_num

/-- C2. After `ProcessGyroData`, each axis `i` of `GyroXYZ` is `0` if `g[i] > 500` or
`g[i] < -500` and is `g[i]` otherwise, for every `samples`, `g` and `sampleIndex`
(the values `500` and `-500` are kept). -/
theorem processGyroData_clamps_each_axis {α : Type} [LinearOrderedField α]
    (samples : Int → Vec3 α) (g : Vec3 α) (sampleIndex : Int) (i : Fin 3) :
    (ProcessGyroData samples g sampleIndex).1 i = if g i > 500 ∨ g i < -500 then 0 else g i := by
  rw [ProcessGyroData_fst, forLoop_clampStep]

/-- The linear velocity of `ProcessGyroData` in terms of its own clamped output, and
the same relation between the traces of consecutive iterations of a run. -/
theorem linear_velocity_of_outputs (mem : Int → Vec3 ℝ) (samples : Window ℝ)
    (g : Vec3 ℝ) (input : Nat → RawRegs) (t : Nat) (ht : t ≤ 40) (i : Fin 3) :
    (ProcessGyroData (rowView mem samples) g t).2 i
        = (if t = 0 then 0
           else (samples ⟨t - 1, by omega⟩ i - (ProcessGyroData (rowView mem samples) g t).1 i)
             * (![2 * 0.001, 2 * 0.001, 0.55 * 0.001] : Vec3 ℝ) i)
    ∧ ∃ s prev cur, runMain Real.sqrt mem input t = some s
        ∧ s.sampleIndex = t
        ∧ tickTrace Real.sqrt mem input (t - 1) = some prev
        ∧ tickTrace Real.sqrt mem input t = some cur
        ∧ (0 < t → s.samples ⟨t - 1, by omega⟩ = prev.GyroXYZ)
        ∧ cur.linearVelocity i
            = (if t = 0 then 0
               else (prev.GyroXYZ i - cur.GyroXYZ i)
                 * (![2 * 0.001, 2 * 0.001, 0.55 * 0.001] : Vec3 ℝ) i) := by
  have hfun : ∀ (w : Window ℝ) (g : Vec3 ℝ), (ProcessGyroData (rowView mem w) g t).2 i
        = (if t = 0 then 0
           else (w ⟨t - 1, by omega⟩ i - (ProcessGyroData (rowView mem w) g t).1 i)
             * (![2 * 0.001, 2 * 0.001, 0.55 * 0.001] : Vec3 ℝ) i) := by
    intro w g
    by_cases h0 : t = 0
    · subst h0
      simp only [if_true]
      unfold ProcessGyroData
      fin_cases i <;> simp
    · have hv : rowView mem w ((t : Int) - 1) = w ⟨t - 1, by omega⟩ := by
        unfold rowView
        rw [dif_pos (by omega)]
        exact congrArg w (Fin.ext (by simp only []; omega))
      have ht0 : ¬ ((t : Int) = 0) := by omega
      rw [if_neg h0, ProcessGyroData_fst]
      unfold ProcessGyroData
      simp only [ht0, if_false, hv, RADIUS_X, RADIUS_Y, RADIUS_Z]
      fin_cases i <;> simp
  refine ⟨hfun samples g, ?_⟩
  have hI : INT_MAX = 2147483647 := rfl
  have hs := runMain_closed Real.sqrt mem input t (by rw [hI]; omega)
  have hp := tickTrace_closed Real.sqrt mem input (t - 1) (by rw [hI]; omega)
  have hc := tickTrace_closed Real.sqrt mem input t (by rw [hI]; omega)
  refine ⟨_, _, _, hs, ?_, hp, hc, ?_, ?_⟩
  · simp [closedState, ht]
  · intro hpos
    simp only [closedState, closedTrace]
    rw [if_pos (show t - 1 < t by omega)]
  · have hidx : (closedState Real.sqrt mem input t).sampleIndex = (t : Int) := by
      simp [closedState, ht]
    simp only [closedTrace]
    rw [hidx, hfun]
    by_cases h0 : t = 0
    · simp [h0]
    · rw [if_neg h0, if_neg h0, ProcessGyroData_fst]
      simp only [closedState]
      rw [if_pos (show t - 1 < t by omega)]
      rfl

/-- C3. The linear velocity `ProcessGyroData` writes: `(0, 0, 0)` when
`sampleIndex = 0`; for `1 ≤ sampleIndex ≤ 40` axis `i` is `(p[i] - c[i]) * r[i]` with
`p = samples[sampleIndex - 1]`, `c[i]` the current sample after clamping (`0` when
`g[i] > 500` or `g[i] < -500`, else `g[i]`) and `r = (2 * 0.001, 2 * 0.001, 0.55 * 0.001)`,
over the reals.  In a run of the main loop the row `samples[sampleIndex - 1]` holds
the previous iteration's clamped sample, so on iteration `t` (`1 ≤ t ≤ 40`) the
linear velocity is the difference of the clamped decoded samples of iterations
`t - 1` and `t`, times `r`. -/
theorem processGyroData_linear_velocity (mem : Int → Vec3 ℝ) (samples : Window ℝ)
    (g : Vec3 ℝ) (input : Nat → RawRegs) (t : Nat) (ht : t ≤ 40) (i : Fin 3) :
    (ProcessGyroData (rowView mem samples) g t).2 i
        = (if t = 0 then 0
           else (samples ⟨t - 1, by omega⟩ i - (if g i > 500 ∨ g i < -500 then 0 else g i))
             * (![2 * 0.001, 2 * 0.001, 0.55 * 0.001] : Vec3 ℝ) i)
    ∧ ∃ s prev cur, runMain Real.sqrt mem input t = some s
        ∧ s.sampleIndex = t
        ∧ tickTrace Real.sqrt mem input (t - 1) = some prev
        ∧ tickTrace Real.sqrt mem input t = some cur
        ∧ (∀ j, prev.GyroXYZ j
            = if (ReadGyroData (input (t - 1)) : Vec3 ℝ) j > 500
                ∨ (ReadGyroData (input (t - 1)) : Vec3 ℝ) j < -500 then 0
              else (ReadGyroData (input (t - 1)) : Vec3 ℝ) j)
        ∧ (∀ j, cur.GyroXYZ j
            = if (ReadGyroData (input t) : Vec3 ℝ) j > 500
                ∨ (ReadGyroData (input t) : Vec3 ℝ) j < -500 then 0
              else (ReadGyroData (input t) : Vec3 ℝ) j)
        ∧ (0 < t → s.samples ⟨t - 1, by omega⟩ = prev.GyroXYZ)
        ∧ cur.linearVelocity i
            = (if t = 0 then 0
               else ((if (ReadGyroData (input (t - 1)) : Vec3 ℝ) i > 500
                        ∨ (ReadGyroData (input (t - 1)) : Vec3 ℝ) i < -500 then 0
                      else (ReadGyroData (input (t - 1)) : Vec3 ℝ) i)
                    - (if (ReadGyroData (input t) : Vec3 ℝ) i > 500
                        ∨ (ReadGyroData (input t) : Vec3 ℝ) i < -500 then 0
                      else (ReadGyroData (input t) : Vec3 ℝ) i))
                 * (![2 * 0.001, 2 * 0.001, 0.55 * 0.001] : Vec3 ℝ) i) := by
  obtain ⟨hfun, s, prev, cur, hs, hidx, hprev, hcur, hrow, hlin⟩ :=
    linear_velocity_of_outputs mem samples g input t ht i
  have hI : INT_MAX = 2147483647 := rfl
  have hp := tickTrace_closed Real.sqrt mem input (t - 1) (by rw [hI]; omega)
  have hc := tickTrace_closed Real.sqrt mem input t (by rw [hI]; omega)
  have eprev : prev = closedTrace Real.sqrt mem input (t - 1) :=
    Option.some.inj (hprev.symm.trans hp)
  have ecur : cur = closedTrace Real.sqrt mem input t :=
    Option.some.inj (hcur.symm.trans hc)
  have hpj : ∀ j, prev.GyroXYZ j
      = if (ReadGyroData (input (t - 1)) : Vec3 ℝ) j > 500
          ∨ (ReadGyroData (input (t - 1)) : Vec3 ℝ) j < -500 then 0
        else (ReadGyroData (input (t - 1)) : Vec3 ℝ) j := by
    intro j
    rw [eprev]
    exact forLoop_clampStep _ j
  have hcj : ∀ j, cur.GyroXYZ j
      = if (ReadGyroData (input t) : Vec3 ℝ) j > 500
          ∨ (ReadGyroData (input t) : Vec3 ℝ) j < -500 then 0
        else (ReadGyroData (input t) : Vec3 ℝ) j := by
    intro j
    rw [ecur]
    exact forLoop_clampStep _ j
  refine ⟨?_, s, prev, cur, hs, hidx, hprev, hcur, hpj, hcj, hrow, ?_⟩
  · rw [hfun, ProcessGyroData_fst, forLoop_clampStep]
  · rw [hlin, hpj i, hcj i]

/-- Witness of C3: iteration 3 of the run that reads zero bytes throughout, with a
`samples` array holding `(1, 2, 3)` in every row and the current sample
`(501, -500, 7)`, axis x (which is clamped to 0). -/
theorem processGyroData_linear_velocity_witness :
    (3 : Nat) ≤ 40 ∧
    (ProcessGyroData (rowView (fun _ => ![0, 0, 0]) fun _ => ![1, 2, 3])
        (![501, -500, 7] : Vec3 ℝ) ((3 : Nat) : Int)).2 0 = (1 - 0) * (2 * 0.001)
    ∧ (ProcessGyroData (rowView (fun _ => ![0, 0, 0]) fun _ => ![1, 2, 3])
        (![501, -500, 7] : Vec3 ℝ) ((3 : Nat) : Int)).2 1 = (2 - (-500)) * (2 * 0.001) := by
  have h0 := (processGyroData_linear_velocity (fun _ => ![0, 0, 0]) (fun _ => ![1, 2, 3])
    ![501, -500, 7] (fun _ => zeroRegs) 3 (by decide) 0).1
  have h1 := (processGyroData_linear_velocity (fun _ => ![0, 0, 0]) (fun _ => ![1, 2, 3])
    ![501, -500, 7] (fun _ => zeroRegs) 3 (by decide) 1).1
  refine ⟨by decide, ?_, ?_⟩
  · rw [h0]
    norm_num
  · rw [h1]
    norm_num

/-- The readings of `ReadData` for byte inputs, and the decoding of `ReadGyroData` in
exact arithmetic over the reals. -/
theorem readGyroData_exact_arithmetic (raw : RawRegs)
    (hxl : raw.xl < 256) (hxh : raw.xh < 256) (hyl : raw.yl < 256) (hyh : raw.yh < 256)
    (hzl : raw.zl < 256) (hzh : raw.zh < 256) :
    (ReadData raw.xl raw.xh
        = if 256 * raw.xh + raw.xl < 32768 then (256 * raw.xh + raw.xl : Int)
          else 256 * raw.xh + raw.xl - 65536)
    ∧ (ReadData raw.yl raw.yh
        = if 256 * raw.yh + raw.yl < 32768 then (256 * raw.yh + raw.yl : Int)
          else 256 * raw.yh + raw.yl - 65536)
    ∧ (ReadData raw.zl raw.zh
        = if 256 * raw.zh + raw.zl < 32768 then (256 * raw.zh + raw.zl : Int)
          else 256 * raw.zh + raw.zl - 65536)
    ∧ (ReadGyroData raw : Vec3 ℝ) 0 = ((ReadData raw.xl raw.xh : ℝ) - 13) * 0.0175
    ∧ (ReadGyroData raw : Vec3 ℝ) 1 = ((ReadData raw.yl raw.yh : ℝ) - 22) * 0.0175
    ∧ (ReadGyroData raw : Vec3 ℝ) 2 = ((ReadData raw.zl raw.zh : ℝ) - 3) * 0.0175 := by
  have hx := ReadData_eq raw.xl raw.xh hxl hxh
  have hy := ReadData_eq raw.yl raw.yh hyl hyh
  have hz := ReadData_eq raw.zl raw.zh hzl hzh
  have hdec : ∀ (r z : Int), -32768 ≤ r → r ≤ 32767 → 0 ≤ z → z ≤ 22 →
      (decodeAxis r z : ℝ) = ((r : ℝ) - z) * 0.0175 := by
    intro r z h1 h2 h3 h4
    have e : toInt32 (r - z) = r - z := by
      unfold toInt32
      omega
    unfold decodeAxis FS_500_SENSITIVITY
    rw [e]
    push_cast
    ring
  have rx : -32768 ≤ ReadData raw.xl raw.xh ∧ ReadData raw.xl raw.xh ≤ 32767 := by
    rw [hx]; split_ifs <;> omega
  have ry : -32768 ≤ ReadData raw.yl raw.yh ∧ ReadData raw.yl raw.yh ≤ 32767 := by
    rw [hy]; split_ifs <;> omega
  have rz : -32768 ≤ ReadData raw.zl raw.zh ∧ ReadData raw.zl raw.zh ≤ 32767 := by
    rw [hz]; split_ifs <;> omega
  refine ⟨?_, ?_, ?_, ?_, ?_, ?_⟩
  · rw [hx]; split_ifs <;> push_cast <;> rfl
  · rw [hy]; split_ifs <;> push_cast <;> rfl
  · rw [hz]; split_ifs <;> push_cast <;> rfl
  · have := hdec _ zero_X rx.1 rx.2 (by decide) (by decide)
    simpa [ReadGyroData, zero_X] using this
  · have := hdec _ zero_Y ry.1 ry.2 (by decide) (by decide)
    simpa [ReadGyroData, zero_Y] using this
  · have := hdec _ zero_Z rz.1 rz.2 (by decide) (by decide)
    simpa [ReadGyroData, zero_Z] using this

/-- C4, as stated, fails: for the bytes `low = 0`, `high = 128` of the x axis the
reading is `-32768` and the `float` that `ReadGyroData` stores is
`-573.66748046875`, which is not `(-32768 - 13) * 0.0175 = -573.6675`. -/
theorem readGyroData_float_is_not_exact :
    ReadData 0 128 = -32768
    ∧ ReadGyroDataFloat ⟨0, 128, 0, 0, 0, 0⟩ 0 = -573.66748046875
    ∧ ReadGyroDataFloat ⟨0, 128, 0, 0, 0, 0⟩ 0 ≠ ((ReadData 0 128 : ℚ) - 13) * 0.0175 := by
  have e1 : ReadData 0 128 = -32768 := by decide
  have hv : ReadGyroDataFloat ⟨0, 128, 0, 0, 0, 0⟩ 0 = -573.66748046875 := by
    simp only [ReadGyroDataFloat, e1, zero_X, Matrix.cons_val_zero]
    exact decodeAxisFloat_min
  refine ⟨e1, hv, ?_⟩
  rw [hv, e1]
  norm_num

/-- C4, amended. For bytes `low`, `high` in `0 .. 255`, `ReadData` returns the two's
complement signed 16-bit reading of `(high << 8) | low`: `256 * high + low` when that
is below `32768`, and `256 * high + low - 65536` otherwise.  `ReadGyroData` subtracts
the zero offset `z = 13, 22, 3` exactly (no wraparound, also for `r = -32768` and
`r = 32767`) and multiplies by `0.0175`: over the reals the result is exactly
`(r - z) * 0.0175`; the `float` the code stores is the `double` product of `r - z`
and the `double` constant `0.0175`, rounded to `float`, and differs from
`(r - z) * 0.0175` by at most `|(r - z) * 0.0175| / 2^23`. -/
theorem readGyroData_decodes_up_to_rounding (raw : RawRegs)
    (hxl : raw.xl < 256) (hxh : raw.xh < 256) (hyl : raw.yl < 256) (hyh : raw.yh < 256)
    (hzl : raw.zl < 256) (hzh : raw.zh < 256) :
    ((ReadData raw.xl raw.xh
        = if 256 * raw.xh + raw.xl < 32768 then (256 * raw.xh + raw.xl : Int)
          else 256 * raw.xh + raw.xl - 65536)
    ∧ (ReadData raw.yl raw.yh
        = if 256 * raw.yh + raw.yl < 32768 then (256 * raw.yh + raw.yl : Int)
          else 256 * raw.yh + raw.yl - 65536)
    ∧ (ReadData raw.zl raw.zh
        = if 256 * raw.zh + raw.zl < 32768 then (256 * raw.zh + raw.zl : Int)
          else 256 * raw.zh + raw.zl - 65536))
    ∧ (toInt32 (ReadData raw.xl raw.xh - zero_X) = ReadData raw.xl raw.xh - 13
      ∧ toInt32 (ReadData raw.yl raw.yh - zero_Y) = ReadData raw.yl raw.yh - 22
      ∧ toInt32 (ReadData raw.zl raw.zh - zero_Z) = ReadData raw.zl raw.zh - 3)
    ∧ ((ReadGyroData raw : Vec3 ℝ) 0 = ((ReadData raw.xl raw.xh : ℝ) - 13) * 0.0175
      ∧ (ReadGyroData raw : Vec3 ℝ) 1 = ((ReadData raw.yl raw.yh : ℝ) - 22) * 0.0175
      ∧ (ReadGyroData raw : Vec3 ℝ) 2 = ((ReadData raw.zl raw.zh : ℝ) - 3) * 0.0175)
    ∧ (ReadGyroDataFloat raw 0
          = toFloat (toDouble (((ReadData raw.xl raw.xh : ℚ) - 13) * toDouble 0.0175))
      ∧ ReadGyroDataFloat raw 1
          = toFloat (toDouble (((ReadData raw.yl raw.yh : ℚ) - 22) * toDouble 0.0175))
      ∧ ReadGyroDataFloat raw 2
          = toFloat (toDouble (((ReadData raw.zl raw.zh : ℚ) - 3) * toDouble 0.0175)))
    ∧ (|ReadGyroDataFloat raw 0 - ((ReadData raw.xl raw.xh : ℚ) - 13) * 0.0175|
          ≤ |((ReadData raw.xl raw.xh : ℚ) - 13) * 0.0175| / 2 ^ 23
      ∧ |ReadGyroDataFloat raw 1 - ((ReadData raw.yl raw.yh : ℚ) - 22) * 0.0175|
          ≤ |((ReadData raw.yl raw.yh : ℚ) - 22) * 0.0175| / 2 ^ 23
      ∧ |ReadGyroDataFloat raw 2 - ((ReadData raw.zl raw.zh : ℚ) - 3) * 0.0175|
          ≤ |((ReadData raw.zl raw.zh : ℚ) - 3) * 0.0175| / 2 ^ 23) := by
  obtain ⟨hx, hy, hz, gx, gy, gz⟩ := readGyroData_exact_arithmetic raw hxl hxh hyl hyh hzl hzh
  have rx : -32768 ≤ ReadData raw.xl raw.xh ∧ ReadData raw.xl raw.xh ≤ 32767 := by
    rw [ReadData_eq _ _ hxl hxh]; split_ifs <;> omega
  have ry : -32768 ≤ ReadData raw.yl raw.yh ∧ ReadData raw.yl raw.yh ≤ 32767 := by
    rw [ReadData_eq _ _ hyl hyh]; split_ifs <;> omega
  have rz : -32768 ≤ ReadData raw.zl raw.zh ∧ ReadData raw.zl raw.zh ≤ 32767 := by
    rw [ReadData_eq _ _ hzl hzh]; split_ifs <;> omega
  have t32 : ∀ (r z : Int), -32768 ≤ r → r ≤ 32767 → 0 ≤ z → z ≤ 22 →
      toInt32 (r - z) = r - z := by
    intro r z _ _ _ _
    unfold toInt32
    omega
  have tx := t32 _ zero_X rx.1 rx.2 (by decide) (by decide)
  have ty := t32 _ zero_Y ry.1 ry.2 (by decide) (by decide)
  have tz := t32 _ zero_Z rz.1 rz.2 (by decide) (by decide)
  have ex := decodeAxisFloat_err _ zero_X rx.1 rx.2 (by decide) (by decide)
  have ey := decodeAxisFloat_err _ zero_Y ry.1 ry.2 (by decide) (by decide)
  have ez := decodeAxisFloat_err _ zero_Z rz.1 rz.2 (by decide) (by decide)
  refine ⟨⟨hx, hy, hz⟩, ⟨?_, ?_, ?_⟩, ⟨gx, gy, gz⟩, ⟨?_, ?_, ?_⟩, ⟨?_, ?_, ?_⟩⟩
  · rw [tx]; rfl
  · rw [ty]; rfl
  · rw [tz]; rfl
  · simp only [ReadGyroDataFloat, decodeAxisFloat, Matrix.cons_val_zero, tx]
    simp [zero_X]
  · simp only [ReadGyroDataFloat, decodeAxisFloat, Matrix.cons_val_one, Matrix.head_cons, ty]
    simp [zero_Y]
  · simp only [ReadGyroDataFloat, decodeAxisFloat, Matrix.cons_val_two, Matrix.tail_cons,
      Matrix.head_cons, tz]
    simp [zero_Z]
  · simpa [ReadGyroDataFloat, zero_X] using ex
  · simpa [ReadGyroDataFloat, zero_Y] using ey
  · simpa [ReadGyroDataFloat, zero_Z] using ez

/-- Witness of the amended C4: the bytes of the readings `-32768` (x), `32767` (y)
and `5` (z); the stored x value is `-573.66748046875`, within the bound of
`-573.6675`. -/
theorem readGyroData_decodes_up_to_rounding_witness :
    ((0 : Nat) < 256 ∧ (128 : Nat) < 256 ∧ (255 : Nat) < 256 ∧ (127 : Nat) < 256
      ∧ (5 : Nat) < 256 ∧ (0 : Nat) < 256)
    ∧ ReadData 0 128 = -32768 ∧ ReadData 255 127 = 32767 ∧ ReadData 5 0 = 5
    ∧ (ReadGyroData ⟨0, 128, 255, 127, 5, 0⟩ : Vec3 ℝ) 0 = ((-32768 : ℝ) - 13) * 0.0175
    ∧ (ReadGyroData ⟨0, 128, 255, 127, 5, 0⟩ : Vec3 ℝ) 1 = ((32767 : ℝ) - 22) * 0.0175
    ∧ (ReadGyroData ⟨0, 128, 255, 127, 5, 0⟩ : Vec3 ℝ) 2 = ((5 : ℝ) - 3) * 0.0175
    ∧ |ReadGyroDataFloat ⟨0, 128, 255, 127, 5, 0⟩ 0 - ((-32768 : ℚ) - 13) * 0.0175|
        ≤ |((-32768 : ℚ) - 13) * 0.0175| / 2 ^ 23 := by
  have h := readGyroData_decodes_up_to_rounding ⟨0, 128, 255, 127, 5, 0⟩ (by decide) (by decide)
    (by decide) (by decide) (by decide) (by decide)
  have e1 : ReadData 0 128 = -32768 := by decide
  have e2 : ReadData 255 127 = 32767 := by decide
  have e3 : ReadData 5 0 = 5 := by decide
  obtain ⟨_, _, ⟨gx, gy, gz⟩, _, ⟨bx, _, _⟩⟩ := h
  refine ⟨by decide, e1, e2, e3, ?_, ?_, ?_, ?_⟩
  · simpa [e1] using gx
  · simpa [e2] using gy
  · simpa [e3] using gz
  · simpa [e1] using bx

/-- C6, as stated, fails: in the run that reads zero bytes throughout, after 40
iterations the window is complete (all 40 rows hold the samples of their
iterations, row 39 the non-zero sample of iteration 39) and yet neither
`CalculateAndDisplayDistance` has been called nor the report sent, and
`dataCollected` is still 0. -/
theorem nothing_triggered_once_window_is_full :
    ∃ s, runMain Real.sqrt (fun _ => ![0, 0, 0]) (fun _ => zeroRegs) 40 = some s
      ∧ (∀ i : Fin 40, ∃ tri,
          tickTrace Real.sqrt (fun _ => ![0, 0, 0]) (fun _ => zeroRegs) i.val = some tri
            ∧ s.samples i = tri.GyroXYZ ∧ s.linearVelStorage i = tri.linearVelocity)
      ∧ s.samples 39 0 = (0 - 13) * 0.0175
      ∧ calcCalls Real.sqrt (fun _ => ![0, 0, 0]) (fun _ => zeroRegs) 40 = 0
      ∧ reportsSent Real.sqrt (fun _ => ![0, 0, 0]) (fun _ => zeroRegs) 40 = 0
      ∧ s.dataCollected = 0 ∧ s.dataSent = 0 ∧ s.globDist = 0 := by
  refine ⟨_, runMain_closed _ _ _ 40 (by decide), ?_, ?_, ?_, ?_, ?_, ?_, ?_⟩
  · intro i
    have hi := i.isLt
    refine ⟨_, tickTrace_closed _ _ _ i.val (by rw [show INT_MAX = 2147483647 from rfl]; omega),
      ?_, ?_⟩
    · simp only [closedState, closedTrace]
      rw [if_pos hi]
    · have hlin : (closedTrace Real.sqrt (fun _ => ![0, 0, 0]) (fun _ => zeroRegs) i.val).linearVelocity
          = linearAt (fun _ => zeroRegs) i.val := closed_linear _ _ _ i.val (by omega)
      rw [hlin]
      simp only [closedState]
      rw [if_pos hi]
  · have h := forLoop_clampStep (ReadGyroData zeroRegs : Vec3 ℝ) 0
    have hv : (ReadGyroData zeroRegs : Vec3 ℝ) 0 = (0 - 13) * 0.0175 := by
      have e : ReadData 0 0 = 0 := by decide
      have e2 : toInt32 (-13) = -13 := by decide
      simp [ReadGyroData, zeroRegs, e, decodeAxis, zero_X, e2, FS_500_SENSITIVITY]
    simp only [closedState, conditionedAt]
    rw [if_pos (by decide), h, hv]
    norm_num
  · rw [calcCalls_closed _ _ _ 40 (by decide)]
    rfl
  · rw [reportsSent_closed _ _ _ 40 (by decide)]
    rfl
  · simp [closedState]
  · simp [closedState]
  · simp [closedState]

/-- C6, amended. Over any number `n` of iterations of the main loop from program
start (no overflow of `sampleIndex`), `CalculateAndDisplayDistance` is called at
most once and the batch report is sent at most once.  Neither has happened when
`n ≤ 40` (so not yet when the 40th sample has been stored); each has happened
exactly once when `n ≥ 41`, on iteration 40, and never again however many
iterations follow.  Accordingly `globDist` is 0 up to `n = 40` and from `n = 41` on
is the result of one call of the estimator on the stored window from `globDist = 0`;
the report sent on iteration 40 is the 40 lines `i, samples[i]`, and no other
iteration sends anything; the latches `dataCollected` and `dataSent` are set
exactly from `n = 41` on. -/
theorem estimate_and_report_once_from_tick_40 {α : Type} [LinearOrderedField α]
    (sqrt : α → α) (mem : Int → Vec3 α) (input : Nat → RawRegs) (n : Nat)
    (hn : (n : Int) < INT_MAX) :
    calcCalls sqrt mem input n ≤ 1
    ∧ reportsSent sqrt mem input n ≤ 1
    ∧ calcCalls sqrt mem input n = (if 41 ≤ n then 1 else 0)
    ∧ reportsSent sqrt mem input n = (if 41 ≤ n then 1 else 0)
    ∧ ∃ s, runMain sqrt mem input n = some s
        ∧ (s.dataCollected = 1 ↔ 41 ≤ n) ∧ (s.dataSent = 1 ↔ 41 ≤ n)
        ∧ (s.dataCollected = 1 ↔ calcCalls sqrt mem input n = 1)
        ∧ (s.dataSent = 1 ↔ reportsSent sqrt mem input n = 1)
        ∧ s.globDist
            = (if 41 ≤ n then
                CalculateAndDisplayDistance sqrt (rowView mem s.linearVelStorage) 0
              else 0)
        ∧ ∀ t, t < n → ∃ tr, tickTrace sqrt mem input t = some tr
            ∧ (tr.calcCalled = true ↔ t = 40)
            ∧ tr.report
                = (if t = 40 then some ((List.finRange 40).map fun i => (i.val, s.samples i))
                  else none) := by
  have hI : INT_MAX = 2147483647 := rfl
  have hc := calcCalls_closed sqrt mem input n hn
  have hr := reportsSent_closed sqrt mem input n hn
  refine ⟨?_, ?_, hc, hr, _, runMain_closed sqrt mem input n hn, ?_, ?_, ?_, ?_, ?_, ?_⟩
  · rw [hc]; split_ifs <;> omega
  · rw [hr]; split_ifs <;> omega
  · simp only [closedState]
    split_ifs <;> simp_all
  · simp only [closedState]
    split_ifs <;> simp_all
  · rw [hc]
    simp only [closedState]
    split_ifs <;> simp
  · rw [hr]
    simp only [closedState]
    split_ifs <;> simp
  · simp only [closedState]
    by_cases h : 41 ≤ n
    · rw [if_pos h, if_pos h, window_full _ n (by omega)]
    · rw [if_neg h, if_neg h]
  · intro t ht
    rw [hI] at hn
    refine ⟨_, tickTrace_closed sqrt mem input t (by rw [hI]; omega), ?_, ?_⟩
    · simp [closedTrace]
    · simp only [closedTrace, closedState]
      by_cases h : t = 40
      · rw [if_pos h, if_pos h, reportLines_eq]
        congr 2
        funext i
        rw [if_pos (by have := i.isLt; omega)]
      · rw [if_neg h, if_neg h]

/-- Witness of the amended C6: 141 iterations, that is 100 iterations after the
one that estimates and reports, of the run whose x reading grows by one at
every iteration. -/
theorem estimate_and_report_once_from_tick_40_witness :
    ((141 : Nat) : Int) < INT_MAX
    ∧ calcCalls Real.sqrt (fun _ => ![0, 0, 0]) rampRegs 141 ≤ 1
    ∧ reportsSent Real.sqrt (fun _ => ![0, 0, 0]) rampRegs 141 ≤ 1
    ∧ calcCalls Real.sqrt (fun _ => ![0, 0, 0]) rampRegs 141
        = (if 41 ≤ 141 then 1 else 0)
    ∧ reportsSent Real.sqrt (fun _ => ![0, 0, 0]) rampRegs 141
        = (if 41 ≤ 141 then 1 else 0)
    ∧ ∃ s, runMain Real.sqrt (fun _ => ![0, 0, 0]) rampRegs 141 = some s
        ∧ (s.dataCollected = 1 ↔ 41 ≤ 141) ∧ (s.dataSent = 1 ↔ 41 ≤ 141)
        ∧ (s.dataCollected = 1
            ↔ calcCalls Real.sqrt (fun _ => ![0, 0, 0]) rampRegs 141 = 1)
        ∧ (s.dataSent = 1
            ↔ reportsSent Real.sqrt (fun _ => ![0, 0, 0]) rampRegs 141 = 1)
        ∧ s.globDist
            = (if 41 ≤ 141 then
                CalculateAndDisplayDistance Real.sqrt
                  (rowView (fun _ => ![0, 0, 0]) s.linearVelStorage) 0
              else 0)
        ∧ ∀ t, t < 141 → ∃ tr,
            tickTrace Real.sqrt (fun _ => ![0, 0, 0]) rampRegs t = some tr
            ∧ (tr.calcCalled = true ↔ t = 40)
            ∧ tr.report
                = (if t = 40 then some ((List.finRange 40).map fun i => (i.val, s.samples i))
                  else none) :=
  ⟨by decide,
    estimate_and_report_once_from_tick_40 Real.sqrt (fun _ => ![0, 0, 0]) rampRegs 141
      (by decide)⟩

/-- C7, as stated, fails: in the run that reads zero bytes throughout, the iteration
with `sampleIndex = 39` stores row 39 (the 40th sample) but neither calls
`CalculateAndDisplayDistance` nor sends the report, and leaves `dataCollected = 0`;
both happen on the next iteration. -/
theorem estimator_not_triggered_when_row_39_is_written :
    ∃ s tr s' tr', runMain Real.sqrt (fun _ => ![0, 0, 0]) (fun _ => zeroRegs) 39 = some s
      ∧ s.sampleIndex = 39
      ∧ tickTrace Real.sqrt (fun _ => ![0, 0, 0]) (fun _ => zeroRegs) 39 = some tr
      ∧ tr.calcCalled = false ∧ tr.report = none
      ∧ runMain Real.sqrt (fun _ => ![0, 0, 0]) (fun _ => zeroRegs) 40 = some s'
      ∧ s'.samples = Function.update s.samples 39 tr.GyroXYZ
      ∧ s'.dataCollected = 0 ∧ s'.dataSent = 0
      ∧ tickTrace Real.sqrt (fun _ => ![0, 0, 0]) (fun _ => zeroRegs) 40 = some tr'
      ∧ tr'.calcCalled = true ∧ tr'.report.isSome = true := by
  refine ⟨_, _, _, _, runMain_closed _ _ _ 39 (by decide), ?_,
    tickTrace_closed _ _ _ 39 (by decide), ?_, ?_, runMain_closed _ _ _ 40 (by decide), ?_, ?_, ?_,
    tickTrace_closed _ _ _ 40 (by decide), ?_, ?_⟩
  · simp [closedState]
  · simp [closedTrace]
  · simp [closedTrace]
  · exact (closedState_store _ _ _ 39 (by decide)).1
  · simp [closedState]
  · simp [closedState]
  · simp [closedTrace]
  · simp [closedTrace]

/-- C7, amended. The distance estimator and the batch reporter are triggered on the
iteration whose `sampleIndex` is 40, the one that follows the iteration (with
`sampleIndex = 39`) that stores row 39, and on no earlier or later iteration; that
iteration sets the latches `dataCollected` and `dataSent`, and the report it sends
is the 40 lines of the stored samples. -/
theorem estimator_triggered_on_tick_40 {α : Type} [LinearOrderedField α] (sqrt : α → α)
    (mem : Int → Vec3 α) (input : Nat → RawRegs) (t : Nat) (ht : (t : Int) + 1 < INT_MAX) :
    ∃ s tr s', runMain sqrt mem input t = some s
      ∧ tickTrace sqrt mem input t = some tr
      ∧ runMain sqrt mem input (t + 1) = some s'
      ∧ (tr.calcCalled = true ↔ t = 40)
      ∧ (tr.report.isSome = true ↔ t = 40)
      ∧ (s.sampleIndex = 40 ↔ t = 40)
      ∧ (s.sampleIndex = 39 ↔ t = 39)
      ∧ ((s.dataCollected = 0 ∧ s'.dataCollected = 1) ↔ t = 40)
      ∧ ((s.dataSent = 0 ∧ s'.dataSent = 1) ↔ t = 40)
      ∧ (t = 40 → tr.report = some (reportLines mem s.samples)
          ∧ (reportLines mem s.samples).length = 40) := by
  have hI : INT_MAX = 2147483647 := rfl
  rw [hI] at ht
  refine ⟨_, _, _, runMain_closed sqrt mem input t (by rw [hI]; omega),
    tickTrace_closed sqrt mem input t (by rw [hI]; omega),
    runMain_closed sqrt mem input (t + 1) (by rw [hI]; push_cast; omega),
    ?_, ?_, ?_, ?_, ?_, ?_, ?_⟩
  · simp [closedTrace]
  · by_cases h : t = 40 <;> simp [closedTrace, h]
  · simp only [closedState]
    split_ifs <;> omega
  · simp only [closedState]
    split_ifs <;> omega
  · simp only [closedState]
    split_ifs <;> constructor <;> intro h <;> omega
  · simp only [closedState]
    split_ifs <;> constructor <;> intro h <;> omega
  · intro h
    subst h
    simp only [closedTrace, closedState, if_true]
    rw [window_full _ 40 (by omega)]
    simp [reportLines]

/-- Witness of the amended C7: iteration 40 of the run that reads zero bytes. -/
theorem estimator_triggered_on_tick_40_witness :
    ((40 : Nat) : Int) + 1 < INT_MAX
    ∧ ∃ s tr s', runMain Real.sqrt (fun _ => ![0, 0, 0]) (fun _ => zeroRegs) 40 = some s
      ∧ tickTrace Real.sqrt (fun _ => ![0, 0, 0]) (fun _ => zeroRegs) 40 = some tr
      ∧ runMain Real.sqrt (fun _ => ![0, 0, 0]) (fun _ => zeroRegs) (40 + 1) = some s'
      ∧ (tr.calcCalled = true ↔ 40 = 40)
      ∧ (tr.report.isSome = true ↔ 40 = 40)
      ∧ (s.sampleIndex = 40 ↔ 40 = 40)
      ∧ (s.sampleIndex = 39 ↔ 40 = 39)
      ∧ ((s.dataCollected = 0 ∧ s'.dataCollected = 1) ↔ 40 = 40)
      ∧ ((s.dataSent = 0 ∧ s'.dataSent = 1) ↔ 40 = 40)
      ∧ (40 = 40 → tr.report = some (reportLines (fun _ => ![0, 0, 0]) s.samples)
          ∧ (reportLines (fun _ => ![0, 0, 0]) s.samples).length = 40) :=
  ⟨by decide,
    estimator_triggered_on_tick_40 Real.sqrt (fun _ => ![0, 0, 0]) (fun _ => zeroRegs) 40
      (by decide)⟩

/-- C8, the code at the failing iteration: in every run, iteration 41 enters
`ProcessGyroData` with `sampleIndex = 42`, so the row index `sampleIndex - 1 = 41`
lies outside `0 .. 39`; the row it reads is not a row of `samples` but the memory
`mem 41` behind it, and the linear velocity it produces is computed from that. -/
theorem processGyroData_reads_past_samples {α : Type} [LinearOrderedField α] (sqrt : α → α)
    (mem : Int → Vec3 α) (input : Nat → RawRegs) :
    ∃ s tr, runMain sqrt mem input 41 = some s
      ∧ s.sampleIndex = 42
      ∧ s.sampleIndex ≠ 0
      ∧ ¬ (0 ≤ s.sampleIndex - 1 ∧ s.sampleIndex - 1 < 40)
      ∧ rowView mem s.samples (s.sampleIndex - 1) = mem 41
      ∧ tickTrace sqrt mem input 41 = some tr
      ∧ tr.linearVelocity
          = (ProcessGyroData (rowView mem s.samples) (ReadGyroData (input 41)) s.sampleIndex).2
      ∧ ∀ i, tr.linearVelocity i = (mem 41 i - tr.GyroXYZ i) * radiusScale i := by
  have hidx : (closedState sqrt mem input 41).sampleIndex = 42 := by
    simp [closedState]
  have hrow : rowView mem (closedState sqrt mem input 41).samples (42 - 1) = mem 41 := by
    unfold rowView
    rw [dif_neg (by omega)]
    rfl
  refine ⟨_, _, runMain_closed sqrt mem input 41 (by decide), hidx, ?_, ?_, ?_,
    tickTrace_closed sqrt mem input 41 (by decide), rfl, ?_⟩
  · rw [hidx]; decide
  · rw [hidx]; decide
  · rw [hidx]; exact hrow
  · intro i
    simp only [closedTrace]
    rw [hidx]
    unfold ProcessGyroData
    have h42 : ¬ ((42 : Int) = 0) := by decide
    simp only [h42, if_false, hrow, RADIUS_X, RADIUS_Y, RADIUS_Z, radiusScale]
    fin_cases i <;> rfl

/-- C10. In a run of the main loop (no overflow of `sampleIndex`),
`CalculateAndDisplayDistance` is called on iteration 40 only, and at that call (the
iteration stores nothing, so the arrays are those of the state it starts from) row
`linearVelStorage[0]` is `(0, 0, 0)`; hence the raw sum over rows `1 .. 39` that the
code computes equals the raw sum over all rows `0 .. 39`, and the calibrated
distance equals the one obtained from all 40 rows. -/
theorem estimator_skipped_row_is_zero (mem : Int → Vec3 ℝ) (input : Nat → RawRegs) (t : Nat)
    (ht : (t : Int) + 1 < INT_MAX) :
    ∃ s tr, runMain Real.sqrt mem input t = some s
      ∧ tickTrace Real.sqrt mem input t = some tr
      ∧ (tr.calcCalled = true ↔ t = 40)
      ∧ (tr.calcCalled = true →
          storeSample s tr.GyroXYZ tr.linearVelocity = some s
          ∧ (∀ j, s.linearVelStorage 0 j = 0)
          ∧ forLoop 1 40 (distanceStep Real.sqrt (rowView mem s.linearVelStorage)) s.globDist
              = forLoop 0 40 (distanceStep Real.sqrt (rowView mem s.linearVelStorage)) s.globDist
          ∧ CalculateAndDisplayDistance Real.sqrt (rowView mem s.linearVelStorage) s.globDist
              = distanceOverAllRows Real.sqrt (rowView mem s.linearVelStorage) s.globDist) := by
  have hI : INT_MAX = 2147483647 := rfl
  rw [hI] at ht
  refine ⟨_, _, runMain_closed Real.sqrt mem input t (by rw [hI]; omega),
    tickTrace_closed Real.sqrt mem input t (by rw [hI]; omega), ?_, ?_⟩
  · simp [closedTrace]
  · intro hc
    have h40 : t = 40 := by simpa [closedTrace] using hc
    subst h40
    have hrow : ∀ j, (closedState Real.sqrt mem input 40).linearVelStorage 0 j = 0 := by
      intro j
      simp only [closedState, linearAt, ProcessGyroData]
      fin_cases j <;> simp
    have hview : ∀ j, rowView mem (closedState Real.sqrt mem input 40).linearVelStorage
        ((0 : Nat) : Int) j = 0 := by
      intro j
      unfold rowView
      rw [dif_pos (by omega)]
      exact hrow j
    have hloop : forLoop 1 40
          (distanceStep Real.sqrt (rowView mem (closedState Real.sqrt mem input 40).linearVelStorage))
          (closedState Real.sqrt mem input 40).globDist
        = forLoop 0 40
          (distanceStep Real.sqrt (rowView mem (closedState Real.sqrt mem input 40).linearVelStorage))
          (closedState Real.sqrt mem input 40).globDist := by
      rw [forLoop_from_zero, distanceStep_zero_row _ 0 _ hview]
    refine ⟨?_, hrow, hloop, ?_⟩
    · simp [storeSample, closedState]
    · unfold CalculateAndDisplayDistance distanceOverAllRows
      rw [hloop]

/-- Witness of C10: iteration 40 of the run that reads zero bytes throughout. -/
theorem estimator_skipped_row_is_zero_witness :
    ((40 : Nat) : Int) + 1 < INT_MAX
    ∧ ∃ s tr, runMain Real.sqrt (fun _ => ![0, 0, 0]) (fun _ => zeroRegs) 40 = some s
      ∧ tickTrace Real.sqrt (fun _ => ![0, 0, 0]) (fun _ => zeroRegs) 40 = some tr
      ∧ (tr.calcCalled = true ↔ 40 = 40)
      ∧ (tr.calcCalled = true →
          storeSample s tr.GyroXYZ tr.linearVelocity = some s
          ∧ (∀ j, s.linearVelStorage 0 j = 0)
          ∧ forLoop 1 40
                (distanceStep Real.sqrt (rowView (fun _ => ![0, 0, 0]) s.linearVelStorage))
                s.globDist
              = forLoop 0 40
                (distanceStep Real.sqrt (rowView (fun _ => ![0, 0, 0]) s.linearVelStorage))
                s.globDist
          ∧ CalculateAndDisplayDistance Real.sqrt
                (rowView (fun _ => ![0, 0, 0]) s.linearVelStorage) s.globDist
              = distanceOverAllRows Real.sqrt
                (rowView (fun _ => ![0, 0, 0]) s.linearVelStorage) s.globDist) :=
  ⟨by decide,
    estimator_skipped_row_is_zero (fun _ => ![0, 0, 0]) (fun _ => zeroRegs) 40 (by decide)⟩

/-- C9, the code at the failing input and at every input: the line formatted for
sample 0 with all three values zero has 63 characters, and for every index and
every stored sample the formatted line has at least 63 characters, so with its
terminating NUL it never fits in the 30 bytes of `message`. -/
theorem report_line_exceeds_message (i : Int) (x y z : ℚ) :
    sprintfLine 0 0 0 0
        = " 0 sample:\nx value: 0.00000\ny value: 0.00000\nz value: 0.00000\n\n".toList
    ∧ (sprintfLine 0 0 0 0).length = 63
    ∧ 63 ≤ (sprintfLine i x y z).length
    ∧ ¬ ((sprintfLine i x y z).length + 1 ≤ messageSize) := by
  have h0 : sprintfLine 0 0 0 0
      = " 0 sample:\nx value: 0.00000\ny value: 0.00000\nz value: 0.00000\n\n".toList := by
    unfold sprintfLine
    rw [formatFixed5_zero]
    decide
  have hlen : 63 ≤ (sprintfLine i x y z).length := by
    have hi := formatInt2_length i
    have hx := formatFixed5_length x
    have hy := formatFixed5_length y
    have hz := formatFixed5_length z
    have l1 : (" sample:\nx value: ".toList).length = 18 := by decide
    have l2 : ("\ny value: ".toList).length = 10 := by decide
    have l3 : ("\nz value: ".toList).length = 10 := by decide
    have l4 : ("\n\n".toList).length = 2 := by decide
    unfold sprintfLine
    simp only [List.length_append, l1, l2, l3, l4]
    omega
  refine ⟨h0, ?_, hlen, ?_⟩
  · rw [h0]
    decide
  · unfold messageSize
    omega

end GyroDistance
